import Mathlib

/-!
Verification of the ETL_NASA pipeline (three Python scripts:
`scripts/extract (1).py`, `scripts/transform (1).py`, `scripts/load (1).py`)
against its natural-language specification.

The scripts are shallowly embedded: files become `Option` values (present or
absent), the HTTP layer becomes boolean/function oracles, pandas data frames
become lists of records with `Option String` cells (a missing/NaN cell is
`none`), and Python exceptions become an explicit error type.  The names of
the Python exception classes actually raised by the code are kept
(`FileNotFoundError` is what the spec calls `MissingInputError`, `ValueError`
is the spec's `ConfigurationError`, `RuntimeError` is the spec's `LoadError`,
and `requests.HTTPError` is the spec's `RemoteError`).
-/

/-- The Python exception classes raised by the three scripts.
`fileNotFoundError` = spec `MissingInputError`, `valueError` = spec
`ConfigurationError`, `runtimeError` = spec `LoadError`, `httpError` = spec
`RemoteError`, `attributeError` = calling a method on Python `None`. -/
inductive PyErr where
  | fileNotFoundError
  | valueError
  | attributeError
  | runtimeError
  | httpError
deriving DecidableEq, Repr

/-- Python truthiness on an optional string: `None` and the empty string are
falsy (`if not x: ...`). -/
def pyFalsy : Option String → Bool
  | none => true
  | some s => s == ""

/-- A credential source is truthy when it holds a non-empty string. -/
def truthy (o : Option String) : Bool := !(pyFalsy o)

/-- Python `a or b` on optional strings: returns `a` when `a` is truthy
(not `None` and not empty), otherwise returns `b`. -/
def pyOr (a b : Option String) : Option String :=
  match a with
  | some s => if s = "" then b else some s
  | none => b

/-- Python string conversion used by f-string interpolation:
`None` prints as the text it shows in Python. -/
def pyStr : Option String → String
  | none => "None"
  | some s => s

/-- The single-quote character, obtained by code point. -/
def sqc : Char := Char.ofNat 39

/-- The single-quote character as a one-character string. -/
def sqStr : String := String.mk [sqc]

/-- Double every single quote in a character list
(the effect of Python `s.replace` of one quote by two). -/
def escChars : List Char → List Char
  | [] => []
  | c :: cs => if c = sqc then c :: c :: escChars cs else c :: escChars cs

/-- `str.replace` of a single quote by a doubled single quote, as performed on
`title`, `explanation` and `image_url` in `load (1).py` lines 38-41. -/
def sqlEscape (s : String) : String := String.mk (escChars s.data)

/-- Number of single-quote characters in a string. -/
def quoteCount (s : String) : Nat := s.data.count sqc

/- ---------------------------------------------------------------------- -/
/- Extract stage: `extract (1).py`                                        -/
/- ---------------------------------------------------------------------- -/

/-- One APOD object as returned by the NASA API (the fields the pipeline
reads).  A `none` field is absent from the JSON object. -/
structure RawRecord where
  date : Option String
  title : Option String
  explanation : Option String
  media_type : Option String
  url : Option String
  thumbnail_url : Option String
deriving DecidableEq, Repr

deriving instance DecidableEq for Except

/-- The JSON body of the API response / of the raw artifact: either a single
object or an array of objects. -/
inductive RawJson where
  | obj (r : RawRecord)
  | arr (rs : List RawRecord)
deriving DecidableEq, Repr

/-- `if isinstance(data, dict): data = [data]` — normalize a scalar response
to a one-element list (extract line 46-47, transform line 21-22). -/
def normalizeJson : RawJson → List RawRecord
  | .obj r => [r]
  | .arr rs => rs

/-- The number of items the API returned: the array length, or 1 for a
scalar object response. -/
def apiItemCount : RawJson → Nat
  | .obj _ => 1
  | .arr rs => rs.length

/-- Observable outcome of one run of `extract_nasa_data`: how many HTTP
requests were issued, what collection (if any) was written to the raw
artifact, and the Python-level result. -/
structure ExtractOutcome where
  httpCalls : Nat
  written : Option (List RawRecord)
  result : Except PyErr (List RawRecord)
deriving DecidableEq, Repr

/-- `extract_nasa_data` from `extract (1).py`, with the HTTP layer abstracted:
`httpOk` is whether `requests.get` returns a success status (else
`raise_for_status` raises) and `resp` is the decoded JSON body.
The function raises `ValueError` when the effective `api_key` is falsy,
before issuing the request; otherwise it issues one request, normalizes a
scalar body to a list, and writes the list to the raw artifact. -/
def extract_nasa_data (api_key : Option String) (httpOk : Bool) (resp : RawJson) :
    ExtractOutcome :=
  if pyFalsy api_key then ⟨0, none, Except.error PyErr.valueError⟩
  else if httpOk then ⟨1, some (normalizeJson resp), Except.ok (normalizeJson resp)⟩
  else ⟨1, none, Except.error PyErr.httpError⟩

/-- Module-level `nasa_key = os.getenv("api_key") or os.getenv("NASA_API_KEY")`.
Each environment variable is `none` when unset. -/
def nasa_key (env_api_key env_nasa_api_key : Option String) : Option String :=
  pyOr env_api_key env_nasa_api_key

/-- A call of `extract_nasa_data` as an entry point: `arg = none` means the
caller passed no explicit `api_key` argument, so the default `nasa_key`
(computed from the two environment variables) is used; `arg = some a` means
the caller passed `a` explicitly (which may itself be Python `None`). -/
def extract_run (env_api_key env_nasa_api_key : Option String)
    (arg : Option (Option String)) (httpOk : Bool) (resp : RawJson) :
    ExtractOutcome :=
  extract_nasa_data (arg.getD (nasa_key env_api_key env_nasa_api_key)) httpOk resp

/-- The claim-side predicate of C9: some recognized source supplies a
non-empty key (either environment variable, or an explicitly passed
argument). -/
def credAvailable (env_api_key env_nasa_api_key : Option String)
    (arg : Option (Option String)) : Bool :=
  truthy env_api_key || truthy env_nasa_api_key ||
    (match arg with
     | some a => truthy a
     | none => false)

/- ---------------------------------------------------------------------- -/
/- Transform stage: `transform (1).py`                                    -/
/- ---------------------------------------------------------------------- -/

/-- One row of the staged data frame, as built in transform lines 26-33.
`media_type` is `record.get` with default, so it is always a string here
(an absent field defaults to the image kind); the other four are plain
`record.get` and may be Python `None`. -/
structure StagedRow where
  date : Option String
  title : Option String
  explanation : Option String
  media_type : String
  image_url : Option String
deriving DecidableEq, Repr

/-- The per-record projection of `transform_nasa_data` (lines 27-33):
five fields, `media_type` defaulting to the image kind when absent, and
`image_url = record.get("url") or record.get("thumbnail_url")`. -/
def transform_record (r : RawRecord) : StagedRow :=
  { date := r.date
    title := r.title
    explanation := r.explanation
    media_type := r.media_type.getD "image"
    image_url := pyOr r.url r.thumbnail_url }

/-- The header line `df.to_csv` writes for the staged frame. -/
def csvHeader : String := "date,title,explanation,media_type,image_url"

/-- Whether `to_csv` must quote a cell (default minimal quoting: the cell
contains a separator, a double quote, or a line break). -/
def csvQuoteNeeded (s : String) : Bool :=
  s.data.any (fun c => c = ',' || c = '"' || c = '\n' || c = '\r')

/-- Double every double-quote character (CSV quoting). -/
def csvEscChars : List Char → List Char
  | [] => []
  | c :: cs => if c = '"' then c :: c :: csvEscChars cs else c :: csvEscChars cs

/-- One CSV cell: a missing value (pandas NaN) prints as the empty cell,
and a string is quoted only when needed. -/
def csvCell : Option String → String
  | none => ""
  | some s =>
      if csvQuoteNeeded s then "\"" ++ String.mk (csvEscChars s.data) ++ "\""
      else s

/-- One CSV data line for a staged row, in the frame's column order. -/
def rowToCsvLine (r : StagedRow) : String :=
  String.intercalate ","
    [csvCell r.date, csvCell r.title, csvCell r.explanation,
     csvCell (some r.media_type), csvCell r.image_url]

/-- The lines `df.to_csv(..., index=False)` writes.  A data frame built from
an empty record list has no columns at all, so pandas emits a single empty
header line; otherwise it emits the header followed by one line per row in
frame order. -/
def to_csv_lines (rows : List StagedRow) : List String :=
  match rows with
  | [] => [""]
  | _ => csvHeader :: rows.map rowToCsvLine

/-- `transform_nasa_data` from `transform (1).py`: the raw artifact is
`none` when the file is absent (then `FileNotFoundError` is raised before
anything is written); otherwise the body is normalized to a list, projected
record by record, and written as CSV lines. -/
def transform_nasa_data (raw : Option RawJson) : Except PyErr (List String) :=
  match raw with
  | none => Except.error PyErr.fileNotFoundError
  | some j => Except.ok (to_csv_lines ((normalizeJson j).map transform_record))

/- ---------------------------------------------------------------------- -/
/- Load stage: `load (1).py`                                              -/
/- ---------------------------------------------------------------------- -/

/-- One row of the loader's data frame after `pd.read_csv` and
`where(pd.notnull, None)`: every cell is a string or Python `None`. -/
structure LoadRow where
  date : Option String
  title : Option String
  explanation : Option String
  media_type : Option String
  image_url : Option String
deriving DecidableEq, Repr

/-- `df["date"] = pd.to_datetime(df["date"]).dt.strftime(...)` (load line 28):
each present date string is rewritten by the timestamp conversion `toTs`
(abstracting the pandas datetime round-trip); a missing date stays missing
(`NaT` maps back to NaN). -/
def normalizeDates (toTs : String → String) (rows : List LoadRow) : List LoadRow :=
  rows.map (fun r => { r with date := r.date.map (fun d => toTs d) })

/-- The f-string shape of one values tuple (load line 43): five interpolated
texts, each wrapped in single quotes. -/
def sqlTuple (a b c d e : String) : String :=
  "(" ++ sqStr ++ a ++ sqStr ++ ", " ++
  sqStr ++ b ++ sqStr ++ ", " ++
  sqStr ++ c ++ sqStr ++ ", " ++
  sqStr ++ d ++ sqStr ++ ", " ++
  sqStr ++ e ++ sqStr ++ ")"

/-- The SQL values-tuple text built for one row (load lines 36-44).
`title`, `explanation` and `image_url` get `.replace` of a single quote by a
doubled one — raising `AttributeError` when the value is Python `None` —
while `date` and `media_type` are interpolated with no escaping. -/
def renderRow (r : LoadRow) : Except PyErr String :=
  match r.title with
  | none => Except.error PyErr.attributeError
  | some t =>
    match r.explanation with
    | none => Except.error PyErr.attributeError
    | some e =>
      match r.image_url with
      | none => Except.error PyErr.attributeError
      | some u =>
        Except.ok
          (sqlTuple (pyStr r.date) (sqlEscape t) (sqlEscape e)
            (pyStr r.media_type) (sqlEscape u))

/-- The values list for one batch, built row by row; the first row with a
`None` text field aborts the loop with that row's error. -/
def renderBatch : List LoadRow → Except PyErr (List String)
  | [] => Except.ok []
  | r :: rs =>
    match renderRow r with
    | Except.error e => Except.error e
    | Except.ok s =>
      match renderBatch rs with
      | Except.error e => Except.error e
      | Except.ok ss => Except.ok (s :: ss)

/-- Boolean success test for a rendered batch. -/
def renderOk (b : List LoadRow) : Bool :=
  match renderBatch b with
  | Except.ok _ => true
  | Except.error _ => false

/-- The store key the generated statement conflicts on: the interpolated
text of the row's `date` cell. -/
def rowKey (r : LoadRow) : String := pyStr r.date

/-- The remote table, keyed by the date text. -/
def Store : Type := String → Option LoadRow

/-- The store with no rows. -/
def emptyStore : Store := fun _ => none

/-- Modelled from the spec: the target store (the Supabase `execute_sql`
RPC endpoint and the `nasa_apod` table behind it) is not part of `src/`;
§4.3 specifies that the generated statement "inserts new rows and, on key
conflict, overwrites `title`, `explanation`, `media_type`, `image_url` with
the incoming values".  Upserting one row therefore makes the key map to
that row, leaving other keys unchanged. -/
def upsertRow (st : Store) (r : LoadRow) : Store :=
  fun k => if k = rowKey r then some r else st k

/-- Modelled from the spec: applying one batch's bulk upsert statement
upserts the batch's rows in order (so a later row with the same key wins). -/
def applyBatch (st : Store) (b : List LoadRow) : Store :=
  b.foldl upsertRow st

/-- `batch_size = 20` (load line 30). -/
def batchSize : Nat := 20

/-- Fuel-indexed chunking: `chunksGo fuel l` slices `l` into consecutive
pieces of `batchSize`, as `df.iloc[i:i+batch_size]` does for
`i in range(0, len(df), batch_size)`.  The fuel only forces termination and
is always at least `l.length` at use sites. -/
def chunksGo : Nat → List LoadRow → List (List LoadRow)
  | _, [] => []
  | 0, _ :: _ => []
  | fuel + 1, r :: rs =>
      ((r :: rs).take batchSize) :: chunksGo fuel ((r :: rs).drop batchSize)

/-- The loader's batch decomposition of the staged frame. -/
def chunksOf20 (l : List LoadRow) : List (List LoadRow) := chunksGo l.length l

/-- Observable outcome of one run of `load_to_supabase`: the batches for
which an HTTP upsert call was issued (in order), the final store, and the
Python-level result. -/
structure LoadOutcome where
  calls : List (List LoadRow)
  store : Store
  result : Except PyErr Unit

/-- The loader's batch loop (load lines 31-72).  For each batch in turn the
values text is built (a `None` text field raises `AttributeError` before any
call for this batch is issued), then one RPC call is issued; `oracle i`
tells whether the `i`-th call returns a success status.  A non-success
response raises `RuntimeError` at once: no later batch is reached, and the
failed statement changes nothing, while earlier batches stay applied. -/
def runBatches (oracle : Nat → Bool) : List (List LoadRow) → Nat → Store → LoadOutcome
  | [], _, st => ⟨[], st, Except.ok ()⟩
  | b :: bs, i, st =>
    match renderBatch b with
    | Except.error e => ⟨[], st, Except.error e⟩
    | Except.ok _ =>
      if oracle i then
        ⟨b :: (runBatches oracle bs (i + 1) (applyBatch st b)).calls,
         (runBatches oracle bs (i + 1) (applyBatch st b)).store,
         (runBatches oracle bs (i + 1) (applyBatch st b)).result⟩
      else ⟨[b], st, Except.error PyErr.runtimeError⟩

/-- `load_to_supabase` from `load (1).py`: `csv = none` models an absent
staged file (`FileNotFoundError` raised before any read, call or write);
otherwise the date column is normalized and the frame is processed in
batches of `batchSize` starting from call index 0 against initial store
`st0`. -/
def load_to_supabase (csv : Option (List LoadRow)) (toTs : String → String)
    (oracle : Nat → Bool) (st0 : Store) : LoadOutcome :=
  match csv with
  | none => ⟨[], st0, Except.error PyErr.fileNotFoundError⟩
  | some rows => runBatches oracle (chunksOf20 (normalizeDates toTs rows)) 0 st0

/- ---------------------------------------------------------------------- -/
/- Concrete data used to exercise the embedding                           -/
/- ---------------------------------------------------------------------- -/

/-- A fully populated staged row. -/
def sampleRow : LoadRow :=
  ⟨some "2024-01-01", some "picture", some "details", some "image", some "http://x"⟩

/-- 45 staged rows (the batching scenario from the spec). -/
def rows45 : List LoadRow := List.replicate 45 sampleRow

/-- A one-row staged file. -/
def loadRowsOne : List LoadRow := [sampleRow]

/-- First of two rows sharing the same date. -/
def convRowA : LoadRow :=
  ⟨some "2024-01-01", some "first title", some "details", some "image", some "http://x"⟩

/-- Second of two rows sharing the same date, with a different title. -/
def convRowB : LoadRow :=
  ⟨some "2024-01-01", some "second title", some "details", some "image", some "http://x"⟩

/-- A staged file holding two rows with the same date and different titles. -/
def convRows : List LoadRow := [convRowA, convRowB]

/-- A staged row whose `title` cell is missing (NaN read back as `None`). -/
def nullTitleRow : LoadRow :=
  ⟨some "2024-01-01", none, some "details", some "image", some "http://x"⟩

/-- A one-row staged file with a missing title. -/
def nullTitleRows : List LoadRow := [nullTitleRow]

/-- A staged row whose `media_type` text contains a single quote. -/
def mediaQuoteRow : LoadRow :=
  ⟨some "2024-01-01 00:00:00", some "picture", some "details",
   some ("it" ++ sqStr ++ "s"), some "http://x"⟩

/-- A staged row whose `title` contains a single quote. -/
def quoteTitleRow : LoadRow :=
  ⟨some "2024-01-01 00:00:00", some ("a" ++ sqStr ++ "b"), some "details",
   some "image", some "http://x"⟩

/-- A raw record whose `url` field is present but empty, with a thumbnail. -/
def rawEmptyUrl : RawRecord :=
  ⟨some "2024-01-01", some "picture", some "details", some "video",
   some "", some "http://thumb"⟩

/-- A raw record with no `url` field and a thumbnail. -/
def rawNoUrl : RawRecord :=
  ⟨some "2024-01-02", some "picture", some "details", some "video",
   none, some "http://thumb"⟩

/-- A plain raw record with a primary URL. -/
def rawSample : RawRecord :=
  ⟨some "2024-01-03", some "picture", some "details", some "image",
   some "http://img", none⟩

/- ---------------------------------------------------------------------- -/
/- Helper lemmas                                                          -/
/- ---------------------------------------------------------------------- -/

theorem chunksGo_nil (fuel : Nat) : chunksGo fuel [] = [] := by
  cases fuel <;> rfl

theorem chunksGo_cons (fuel : Nat) (r : LoadRow) (rs : List LoadRow) :
    chunksGo (fuel + 1) (r :: rs) =
      ((r :: rs).take batchSize) :: chunksGo fuel ((r :: rs).drop batchSize) := rfl

theorem chunksGo_map_length (fuel : Nat) : ∀ l : List LoadRow, l.length ≤ fuel →
    (chunksGo fuel l).map List.length =
      List.replicate (l.length / 20) 20 ++
        (if l.length % 20 = 0 then [] else [l.length % 20]) := by
  induction fuel with
  | zero =>
    intro l hl
    have hnil : l = [] := by
      cases l with
      | nil => rfl
      | cons a as => simp at hl
    subst hnil
    simp [chunksGo_nil]
  | succ f ih =>
    intro l hl
    cases l with
    | nil => simp [chunksGo_nil]
    | cons r rs =>
      have hle : ((r :: rs).drop 20).length ≤ f := by
        simp only [List.length_drop]
        simp only [List.length_cons] at hl ⊢
        omega
      have hd : ((r :: rs).drop 20).length = (r :: rs).length - 20 := by
        simp [List.length_drop]
      rw [chunksGo_cons]
      simp only [batchSize, List.map_cons, List.length_take, ih _ hle, hd, List.length_cons]
      by_cases h20 : 19 ≤ rs.length
      · have e1 : 20 ⊓ (rs.length + 1) = 20 := by omega
        have e2 : (rs.length + 1) / 20 = (rs.length + 1 - 20) / 20 + 1 := by omega
        have e3 : (rs.length + 1 - 20) % 20 = (rs.length + 1) % 20 := by omega
        rw [e1, e3, e2, List.replicate_succ, List.cons_append]
      · have e1 : 20 ⊓ (rs.length + 1) = rs.length + 1 := by omega
        have e2 : rs.length + 1 - 20 = 0 := by omega
        have e3 : (rs.length + 1) / 20 = 0 := by omega
        have e4 : ¬((rs.length + 1) % 20 = 0) := by omega
        have e5 : (rs.length + 1) % 20 = rs.length + 1 := by omega
        rw [e1, e2, e3]
        simp [e4, e5]

theorem chunksOf20_map_length (l : List LoadRow) :
    (chunksOf20 l).map List.length =
      List.replicate (l.length / 20) 20 ++
        (if l.length % 20 = 0 then [] else [l.length % 20]) :=
  chunksGo_map_length l.length l (Nat.le_refl _)

theorem chunksOf20_length (l : List LoadRow) :
    (chunksOf20 l).length = (l.length + 19) / 20 := by
  have h := congrArg List.length (chunksOf20_map_length l)
  simp only [List.length_map, List.length_append, List.length_replicate] at h
  by_cases hm : l.length % 20 = 0 <;> simp [hm] at h <;> omega

theorem chunksGo_flatten (fuel : Nat) : ∀ l : List LoadRow, l.length ≤ fuel →
    (chunksGo fuel l).flatten = l := by
  induction fuel with
  | zero =>
    intro l hl
    cases l with
    | nil => simp [chunksGo_nil]
    | cons a as => simp at hl
  | succ f ih =>
    intro l hl
    cases l with
    | nil => simp [chunksGo_nil]
    | cons r rs =>
      have hle : ((r :: rs).drop 20).length ≤ f := by
        simp only [List.length_drop]
        simp only [List.length_cons] at hl ⊢
        omega
      rw [chunksGo_cons]
      simp only [batchSize, List.flatten_cons, ih _ hle]
      exact List.take_append_drop 20 (r :: rs)

theorem chunksOf20_flatten (l : List LoadRow) : (chunksOf20 l).flatten = l :=
  chunksGo_flatten l.length l (Nat.le_refl _)

theorem chunksGo_getElem (fuel : Nat) : ∀ (l : List LoadRow) (q : Nat),
    l.length ≤ fuel → 20 * q < l.length →
    (chunksGo fuel l)[q]? = some ((l.drop (20 * q)).take 20) := by
  induction fuel with
  | zero =>
    intro l q hl hq
    omega
  | succ f ih =>
    intro l q hl hq
    cases l with
    | nil => simp at hq
    | cons r rs =>
      rw [chunksGo_cons]
      simp only [batchSize]
      cases q with
      | zero => simp
      | succ q =>
        have hle : ((r :: rs).drop 20).length ≤ f := by
          simp only [List.length_drop]
          simp only [List.length_cons] at hl ⊢
          omega
        have hq' : 20 * q < ((r :: rs).drop 20).length := by
          simp only [List.length_drop]
          simp only [List.length_cons] at hq ⊢
          omega
        rw [List.getElem?_cons_succ, ih _ q hle hq', List.drop_drop]
        have e : 20 + 20 * q = 20 * (q + 1) := by ring
        rw [e]

theorem mem_chunksOf20 (l : List LoadRow) (m : Nat) (hm : m < l.length) :
    ∃ batch, (chunksOf20 l)[m / 20]? = some batch ∧ l[m] ∈ batch := by
  have hdm := Nat.div_add_mod m 20
  have hq : 20 * (m / 20) < l.length := by omega
  refine ⟨(l.drop (20 * (m / 20))).take 20, chunksGo_getElem l.length l (m / 20) (Nat.le_refl _) hq, ?_⟩
  have hmod : m % 20 < 20 := Nat.mod_lt m (by omega)
  have hb1 : m % 20 < (l.drop (20 * (m / 20))).length := by
    simp only [List.length_drop]
    omega
  have hb2 : m % 20 < ((l.drop (20 * (m / 20))).take 20).length := by
    simp only [List.length_take, List.length_drop]
    omega
  have hget : ((l.drop (20 * (m / 20))).take 20)[m % 20] = l[m] := by
    rw [List.getElem_take, List.getElem_drop]
    congr 1
    try omega
  exact hget ▸ List.getElem_mem hb2

theorem renderRow_error_eq (r : LoadRow) (e : PyErr) :
    renderRow r = Except.error e → e = PyErr.attributeError := by
  cases ht : r.title <;> cases he : r.explanation <;> cases hu : r.image_url <;>
    simp [renderRow, ht, he, hu] <;> intro h <;> exact h.symm

theorem renderRow_none (r : LoadRow)
    (h : r.title = none ∨ r.explanation = none) :
    renderRow r = Except.error PyErr.attributeError := by
  rcases h with h | h
  · simp [renderRow, h]
  · cases ht : r.title <;> simp [renderRow, ht, h]

theorem renderBatch_error_eq : ∀ (b : List LoadRow) (e : PyErr),
    renderBatch b = Except.error e → e = PyErr.attributeError := by
  intro b
  induction b with
  | nil => intro e h; simp [renderBatch] at h
  | cons r rs ih =>
    intro e h
    cases hr : renderRow r with
    | error e0 =>
      rw [renderBatch, hr] at h
      cases h
      exact renderRow_error_eq r _ hr
    | ok s =>
      rw [renderBatch, hr] at h
      cases hb : renderBatch rs with
      | error e1 =>
        rw [hb] at h
        cases h
        exact ih _ hb
      | ok ss => rw [hb] at h; cases h

theorem renderBatch_mem_none (b : List LoadRow)
    (h : ∃ r ∈ b, r.title = none ∨ r.explanation = none) :
    ∃ e, renderBatch b = Except.error e := by
  induction b with
  | nil => simp at h
  | cons r rs ih =>
    rcases h with ⟨r0, hmem, hr0⟩
    rcases List.mem_cons.mp hmem with rfl | hmem0
    · exact ⟨PyErr.attributeError, by rw [renderBatch, renderRow_none r0 hr0]⟩
    · cases hr : renderRow r with
      | error e0 => exact ⟨e0, by rw [renderBatch, hr]⟩
      | ok s =>
        obtain ⟨e1, hb⟩ := ih ⟨r0, hmem0, hr0⟩
        exact ⟨e1, by rw [renderBatch, hr, hb]⟩

theorem renderOk_iff (b : List LoadRow) :
    renderOk b = true ↔ ∃ ss, renderBatch b = Except.ok ss := by
  unfold renderOk
  cases hb : renderBatch b <;> simp

theorem foldl_upsert_no_match (l : List LoadRow) (k : String) :
    ∀ st : Store, (∀ r ∈ l, rowKey r ≠ k) → (l.foldl upsertRow st) k = st k := by
  induction l with
  | nil => intro st _; rfl
  | cons a l ih =>
    intro st h
    rw [List.foldl_cons, ih _ (fun r hr => h r (List.mem_cons_of_mem a hr))]
    have ha : rowKey a ≠ k := h a (List.mem_cons_self a l)
    simp only [upsertRow]
    rw [if_neg (fun hk => ha hk.symm)]

theorem foldl_upsert_last (l : List LoadRow) (k : String) :
    ∀ (st : Store) (j : Nat) (hj : j < l.length),
      rowKey l[j] = k →
      (∀ m (hm : m < l.length), j < m → rowKey l[m] ≠ k) →
      (l.foldl upsertRow st) k = some l[j] := by
  induction l with
  | nil => intro st j hj; simp at hj
  | cons a l ih =>
    intro st j hj hkey hlast
    cases j with
    | zero =>
      rw [List.foldl_cons]
      have hnone : ∀ r ∈ l, rowKey r ≠ k := by
        intro r hr
        obtain ⟨m, hm, hrm⟩ := List.getElem_of_mem hr
        have := hlast (m + 1) (by simpa using Nat.succ_lt_succ hm) (Nat.succ_pos m)
        rw [List.getElem_cons_succ] at this
        rw [← hrm]
        exact this
      rw [foldl_upsert_no_match l k _ hnone]
      simp only [List.getElem_cons_zero] at hkey ⊢
      simp [upsertRow, hkey.symm]
    | succ j =>
      rw [List.foldl_cons]
      have hj' : j < l.length := by simpa using hj
      simp only [List.getElem_cons_succ] at hkey ⊢
      have hlast' : ∀ m (hm : m < l.length), j < m → rowKey l[m] ≠ k := by
        intro m hm hjm
        have := hlast (m + 1) (by simpa using Nat.succ_lt_succ hm) (by omega)
        rw [List.getElem_cons_succ] at this
        exact this
      exact ih _ j hj' hkey hlast'

theorem runBatches_ok_shape (oracle : Nat → Bool) :
    ∀ (bs : List (List LoadRow)) (i : Nat) (st : Store),
      (runBatches oracle bs i st).result = Except.ok () →
      runBatches oracle bs i st =
        ⟨bs, (bs.flatten).foldl upsertRow st, Except.ok ()⟩ := by
  intro bs
  induction bs with
  | nil =>
    intro i st _
    simp [runBatches]
  | cons b bs ih =>
    intro i st hres
    cases hrb : renderBatch b with
    | error e => simp [runBatches, hrb] at hres
    | ok ss =>
      cases horc : oracle i with
      | false => simp [runBatches, hrb, horc] at hres
      | true =>
        have hres0 : (runBatches oracle bs (i + 1) (applyBatch st b)).result = Except.ok () := by
          simpa [runBatches, hrb, horc] using hres
        have ihh := ih (i + 1) (applyBatch st b) hres0
        simp only [runBatches, hrb, horc, if_true, ihh]
        simp [applyBatch, List.foldl_append]

theorem runBatches_remote_fail (oracle : Nat → Bool) :
    ∀ (bs : List (List LoadRow)) (i : Nat) (st : Store) (j : Nat),
      (∀ b ∈ bs, renderOk b = true) → j < bs.length →
      (∀ k, k < j → oracle (i + k) = true) → oracle (i + j) = false →
      runBatches oracle bs i st =
        ⟨bs.take (j + 1), ((bs.take j).flatten).foldl upsertRow st,
         Except.error PyErr.runtimeError⟩ := by
  intro bs
  induction bs with
  | nil => intro i st j _ hj; simp at hj
  | cons b bs ih =>
    intro i st j hren hj hpre hfail
    obtain ⟨ss, hrb⟩ := (renderOk_iff b).mp (hren b (List.mem_cons_self b bs))
    cases j with
    | zero =>
      have h0 : oracle i = false := by simpa using hfail
      simp [runBatches, hrb, h0]
    | succ j =>
      have h0 : oracle i = true := by
        have := hpre 0 (Nat.succ_pos j)
        simpa using this
      have hpre0 : ∀ k, k < j → oracle (i + 1 + k) = true := by
        intro k hk
        have := hpre (k + 1) (by omega)
        have e : i + (k + 1) = i + 1 + k := by omega
        rwa [e] at this
      have hfail0 : oracle (i + 1 + j) = false := by
        have e : i + (j + 1) = i + 1 + j := by omega
        rwa [e] at hfail
      have hren0 : ∀ c ∈ bs, renderOk c = true :=
        fun c hc => hren c (List.mem_cons_of_mem b hc)
      have hj0 : j < bs.length := by simpa using hj
      have ihh := ih (i + 1) (applyBatch st b) j hren0 hj0 hpre0 hfail0
      simp only [runBatches, hrb, h0, if_true, ihh]
      simp [applyBatch, List.foldl_append, List.take_succ_cons]

theorem runBatches_render_fail (oracle : Nat → Bool) (hor : ∀ k, oracle k = true) :
    ∀ (bs : List (List LoadRow)) (i : Nat) (st : Store) (J : Nat) (hJ : J < bs.length),
      (∃ e, renderBatch bs[J] = Except.error e) →
      (runBatches oracle bs i st).result = Except.error PyErr.attributeError ∧
        (runBatches oracle bs i st).calls.length ≤ J := by
  intro bs
  induction bs with
  | nil => intro i st J hJ; simp at hJ
  | cons b bs ih =>
    intro i st J hJ hbad
    cases hrb : renderBatch b with
    | error e =>
      have he := renderBatch_error_eq b e hrb
      subst he
      simp [runBatches, hrb]
    | ok ss =>
      cases J with
      | zero =>
        obtain ⟨e, hbe⟩ := hbad
        simp only [List.getElem_cons_zero] at hbe
        rw [hrb] at hbe
        cases hbe
      | succ J =>
        have hJ0 : J < bs.length := by simpa using hJ
        have hbad0 : ∃ e, renderBatch bs[J] = Except.error e := by
          simpa only [List.getElem_cons_succ] using hbad
        have ihh := ih (i + 1) (applyBatch st b) J hJ0 hbad0
        simp only [runBatches, hrb, hor i, if_true]
        constructor
        · exact ihh.1
        · have h2 := ihh.2
          simp only [List.length_cons]
          omega

theorem escChars_count (cs : List Char) :
    (escChars cs).count sqc = 2 * cs.count sqc := by
  induction cs with
  | nil => simp [escChars]
  | cons c cs ih =>
    by_cases hc : c = sqc
    · subst hc
      simp [escChars, List.count_cons, ih]
      omega
    · simp [escChars, hc, List.count_cons, ih]

theorem quoteCount_sqlEscape (s : String) :
    quoteCount (sqlEscape s) = 2 * quoteCount s := by
  simpa [quoteCount, sqlEscape] using escChars_count s.data

theorem quoteCount_append (a b : String) :
    quoteCount (a ++ b) = quoteCount a + quoteCount b := by
  simp [quoteCount, String.data_append]

/- ---------------------------------------------------------------------- -/
/- Claims                                                                 -/
/- ---------------------------------------------------------------------- -/

/-- C1: for every staged CSV whose load run completes successfully,
`load_to_supabase` partitions the rows into consecutive batches of exactly
20 rows each except possibly the last (which holds `n mod 20` rows when `n`
is not a multiple of 20), and issues exactly `ceil(n/20) = (n+19)/20`
upsert calls, the issued batches concatenating back to the full frame. -/
theorem loader_batches_of_twenty (rows : List LoadRow) (toTs : String → String)
    (oracle : Nat → Bool) (st0 : Store)
    (hok : (load_to_supabase (some rows) toTs oracle st0).result = Except.ok ()) :
    (load_to_supabase (some rows) toTs oracle st0).calls.map List.length =
        List.replicate (rows.length / 20) 20 ++
          (if rows.length % 20 = 0 then [] else [rows.length % 20]) ∧
    (load_to_supabase (some rows) toTs oracle st0).calls.length =
        (rows.length + 19) / 20 ∧
    (load_to_supabase (some rows) toTs oracle st0).calls.flatten =
        normalizeDates toTs rows := by
  have hload : load_to_supabase (some rows) toTs oracle st0 =
      runBatches oracle (chunksOf20 (normalizeDates toTs rows)) 0 st0 := rfl
  have hshape := runBatches_ok_shape oracle (chunksOf20 (normalizeDates toTs rows)) 0 st0
    (by rw [← hload]; exact hok)
  have hlen : (normalizeDates toTs rows).length = rows.length := by
    simp [normalizeDates]
  simp only [hload, hshape]
  refine ⟨?_, ?_, ?_⟩
  · rw [chunksOf20_map_length, hlen]
  · rw [chunksOf20_length, hlen]
  · rw [chunksOf20_flatten]


/-- Witness for C1 at the 45-row scenario: 3 calls of sizes 20, 20, 5. -/
theorem loader_batches_of_twenty_witness :
    (load_to_supabase (some rows45) id (fun _ => true) emptyStore).calls.map List.length =
        List.replicate (rows45.length / 20) 20 ++
          (if rows45.length % 20 = 0 then [] else [rows45.length % 20]) ∧
    (load_to_supabase (some rows45) id (fun _ => true) emptyStore).calls.length =
        (rows45.length + 19) / 20 ∧
    (load_to_supabase (some rows45) id (fun _ => true) emptyStore).calls.flatten =
        normalizeDates id rows45 :=
  loader_batches_of_twenty rows45 id (fun _ => true) emptyStore (by decide)

/-- C2: when a staged file holds two rows with the same normalized date and
different titles, a successful load leaves the store's row for that date
carrying the later row's title (last-row-wins across the whole frame, so the
result is the same whether the rows share a batch or not).  The store's
conflict handling itself is modelled from the spec (see `upsertRow`). -/
theorem loader_last_row_wins (rows : List LoadRow) (toTs : String → String)
    (oracle : Nat → Bool) (st0 : Store) (i j : Nat) (d : String)
    (hi : i < (normalizeDates toTs rows).length)
    (hj : j < (normalizeDates toTs rows).length)
    (hij : i < j)
    (hki : rowKey (normalizeDates toTs rows)[i] = d)
    (hkj : rowKey (normalizeDates toTs rows)[j] = d)
    (hti : (normalizeDates toTs rows)[i].title ≠ (normalizeDates toTs rows)[j].title)
    (hlast : ∀ m (hm : m < (normalizeDates toTs rows).length), j < m →
        rowKey (normalizeDates toTs rows)[m] ≠ d)
    (hok : (load_to_supabase (some rows) toTs oracle st0).result = Except.ok ()) :
    ∃ r, (load_to_supabase (some rows) toTs oracle st0).store d = some r ∧
      r.title = (normalizeDates toTs rows)[j].title := by
  have hload : load_to_supabase (some rows) toTs oracle st0 =
      runBatches oracle (chunksOf20 (normalizeDates toTs rows)) 0 st0 := rfl
  have hshape := runBatches_ok_shape oracle (chunksOf20 (normalizeDates toTs rows)) 0 st0
    (by rw [← hload]; exact hok)
  refine ⟨(normalizeDates toTs rows)[j], ?_, rfl⟩
  have hstore : (load_to_supabase (some rows) toTs oracle st0).store =
      ((chunksOf20 (normalizeDates toTs rows)).flatten).foldl upsertRow st0 := by
    rw [hload, hshape]
  rw [hstore, chunksOf20_flatten]
  exact foldl_upsert_last (normalizeDates toTs rows) d st0 j hj hkj hlast

/-- Witness for C2: two rows with the same date in the same (single) batch;
after a successful load the store holds the second row's title. -/
theorem loader_last_row_wins_witness :
    ∃ r, (load_to_supabase (some convRows) id (fun _ => true) emptyStore).store
        "2024-01-01" = some r ∧
      r.title = (normalizeDates id convRows)[1].title :=
  loader_last_row_wins convRows id (fun _ => true) emptyStore 0 1 "2024-01-01"
    (by decide) (by decide) (by decide) (by decide) (by decide) (by decide)
    (by
      intro m hm h1m
      have hlen : (normalizeDates id convRows).length = 2 := rfl
      rw [hlen] at hm
      exact absurd h1m (by omega))
    (by decide)

/-- C6: when every batch renders and the `j`-th upsert call is the first to
return a non-success response, `load_to_supabase` raises the loader error at
once: exactly the first `j+1` batches were issued, no later batch is
reached, and the store holds exactly the upserts of the `j` batches before
the failing one (the failure neither rolls them back nor applies the failed
batch). -/
theorem loader_fail_fast (rows : List LoadRow) (toTs : String → String)
    (oracle : Nat → Bool) (st0 : Store) (j : Nat)
    (hren : ∀ b ∈ chunksOf20 (normalizeDates toTs rows), renderOk b = true)
    (hj : j < (chunksOf20 (normalizeDates toTs rows)).length)
    (hpre : ∀ k, k < j → oracle k = true)
    (hfail : oracle j = false) :
    load_to_supabase (some rows) toTs oracle st0 =
      ⟨(chunksOf20 (normalizeDates toTs rows)).take (j + 1),
       (((chunksOf20 (normalizeDates toTs rows)).take j).flatten).foldl upsertRow st0,
       Except.error PyErr.runtimeError⟩ := by
  have hload : load_to_supabase (some rows) toTs oracle st0 =
      runBatches oracle (chunksOf20 (normalizeDates toTs rows)) 0 st0 := rfl
  have hpre0 : ∀ k, k < j → oracle (0 + k) = true := by
    intro k hk
    simpa using hpre k hk
  have hfail0 : oracle (0 + j) = false := by simpa using hfail
  rw [hload]
  exact runBatches_remote_fail oracle (chunksOf20 (normalizeDates toTs rows)) 0 st0 j
    hren hj hpre0 hfail0

/-- Witness for C6: one staged row, a store that rejects the first call; the
run ends in the loader error with exactly that one call issued and an
unchanged store. -/
theorem loader_fail_fast_witness :
    load_to_supabase (some loadRowsOne) id (fun _ => false) emptyStore =
      ⟨(chunksOf20 (normalizeDates id loadRowsOne)).take (0 + 1),
       (((chunksOf20 (normalizeDates id loadRowsOne)).take 0).flatten).foldl
         upsertRow emptyStore,
       Except.error PyErr.runtimeError⟩ :=
  loader_fail_fast loadRowsOne id (fun _ => false) emptyStore 0
    (by decide) (by decide) (fun k hk => absurd hk (by omega)) rfl

/-- C7: a missing raw artifact makes `transform_nasa_data` raise the
missing-input error (`FileNotFoundError`), and a missing staged CSV makes
`load_to_supabase` raise the same error; in both cases nothing is written
(`transform` produces no lines, the loader issues no call and leaves the
store untouched). -/
theorem missing_input_errors (toTs : String → String) (oracle : Nat → Bool)
    (st0 : Store) :
    transform_nasa_data none = Except.error PyErr.fileNotFoundError ∧
    load_to_supabase none toTs oracle st0 =
      ⟨[], st0, Except.error PyErr.fileNotFoundError⟩ :=
  ⟨rfl, rfl⟩

/-- C10: a staged row whose `title` or `explanation` cell is missing makes
`load_to_supabase` fail with `AttributeError` (`None.replace`), which is a
different error from the loader's `RuntimeError`, and the upsert call for
the batch containing that row (batch index `m / 20`) is never issued — only
earlier batches can have been called. -/
theorem loader_requires_text_fields (rows : List LoadRow) (toTs : String → String)
    (oracle : Nat → Bool) (st0 : Store) (m : Nat)
    (hm : m < rows.length)
    (hor : ∀ k, oracle k = true)
    (hnull : rows[m].title = none ∨ rows[m].explanation = none) :
    (load_to_supabase (some rows) toTs oracle st0).result =
        Except.error PyErr.attributeError ∧
    PyErr.attributeError ≠ PyErr.runtimeError ∧
    (load_to_supabase (some rows) toTs oracle st0).calls.length ≤ m / 20 := by
  have hmlen : m < (normalizeDates toTs rows).length := by
    simpa [normalizeDates] using hm
  have htitle : (normalizeDates toTs rows)[m].title = rows[m].title := by
    simp [normalizeDates]
  have hexpl : (normalizeDates toTs rows)[m].explanation = rows[m].explanation := by
    simp [normalizeDates]
  obtain ⟨batch, hbq, hmem⟩ := mem_chunksOf20 (normalizeDates toTs rows) m hmlen
  have hbatchnull : ∃ r ∈ batch, r.title = none ∨ r.explanation = none := by
    refine ⟨(normalizeDates toTs rows)[m], hmem, ?_⟩
    rcases hnull with h | h
    · exact Or.inl (htitle.trans h)
    · exact Or.inr (hexpl.trans h)
  obtain ⟨e, hre⟩ := renderBatch_mem_none batch hbatchnull
  obtain ⟨hq, hbeq⟩ := List.getElem?_eq_some_iff.mp hbq
  have hbad : ∃ e0, renderBatch (chunksOf20 (normalizeDates toTs rows))[m / 20] =
      Except.error e0 := ⟨e, by rw [hbeq]; exact hre⟩
  have hmain := runBatches_render_fail oracle hor
    (chunksOf20 (normalizeDates toTs rows)) 0 st0 (m / 20) hq hbad
  exact ⟨hmain.1, by decide, hmain.2⟩

/-- Witness for C10: a single row with a missing title; the run fails with
`AttributeError` before its batch's call. -/
theorem loader_requires_text_fields_witness :
    (load_to_supabase (some nullTitleRows) id (fun _ => true) emptyStore).result =
        Except.error PyErr.attributeError ∧
    PyErr.attributeError ≠ PyErr.runtimeError ∧
    (load_to_supabase (some nullTitleRows) id (fun _ => true) emptyStore).calls.length ≤
        0 / 20 :=
  loader_requires_text_fields nullTitleRows id (fun _ => true) emptyStore 0
    (by decide) (fun _ => rfl) (Or.inl rfl)

/-- C3 counterexample: the claim predicts every interpolated field has its
single quotes doubled, but for a row whose `media_type` contains a quote
the generated tuple interpolates it verbatim — the all-fields-escaped tuple
is not what `renderRow` produces (second conjunct shows the actual text). -/
theorem loader_escaping_cx :
    renderRow mediaQuoteRow ≠
      Except.ok (sqlTuple (sqlEscape "2024-01-01 00:00:00") (sqlEscape "picture")
        (sqlEscape "details") (sqlEscape ("it" ++ sqStr ++ "s"))
        (sqlEscape "http://x")) ∧
    renderRow mediaQuoteRow =
      Except.ok (sqlTuple "2024-01-01 00:00:00" "picture" "details"
        ("it" ++ sqStr ++ "s") "http://x") := by
  constructor
  · decide
  · decide

/-- C3 amended: of the five interpolated fields, `title`, `explanation` and
`image_url` have each single quote doubled before interpolation, while
`date` and `media_type` are interpolated verbatim; consequently the quote
count of the produced tuple is the 10 delimiter quotes plus twice the
quotes of the three escaped fields plus the untouched quotes of `date` and
`media_type`. -/
theorem loader_escaping_amended (r : LoadRow) (d t e m u : String)
    (hd : r.date = some d) (ht : r.title = some t) (he : r.explanation = some e)
    (hm : r.media_type = some m) (hu : r.image_url = some u) :
    renderRow r =
      Except.ok (sqlTuple d (sqlEscape t) (sqlEscape e) m (sqlEscape u)) ∧
    quoteCount (sqlTuple d (sqlEscape t) (sqlEscape e) m (sqlEscape u)) =
      10 + quoteCount d + 2 * quoteCount t + 2 * quoteCount e +
        quoteCount m + 2 * quoteCount u := by
  constructor
  · simp [renderRow, hd, ht, he, hm, hu, pyStr]
  · have h1 : quoteCount sqStr = 1 := by decide
    have h2 : quoteCount "(" = 0 := by decide
    have h3 : quoteCount ", " = 0 := by decide
    have h4 : quoteCount ")" = 0 := by decide
    simp only [sqlTuple, quoteCount_append, quoteCount_sqlEscape, h1, h2, h3, h4]
    omega

/-- Witness for C3 amended, at a row whose title holds one quote. -/
theorem loader_escaping_amended_witness :
    renderRow quoteTitleRow =
      Except.ok (sqlTuple "2024-01-01 00:00:00" (sqlEscape ("a" ++ sqStr ++ "b"))
        (sqlEscape "details") "image" (sqlEscape "http://x")) ∧
    quoteCount (sqlTuple "2024-01-01 00:00:00" (sqlEscape ("a" ++ sqStr ++ "b"))
        (sqlEscape "details") "image" (sqlEscape "http://x")) =
      10 + quoteCount "2024-01-01 00:00:00" + 2 * quoteCount ("a" ++ sqStr ++ "b") +
        2 * quoteCount "details" + quoteCount "image" + 2 * quoteCount "http://x" :=
  loader_escaping_amended quoteTitleRow "2024-01-01 00:00:00" ("a" ++ sqStr ++ "b")
    "details" "image" "http://x" rfl rfl rfl rfl rfl

/-- C4 counterexample: for a raw artifact holding an empty list (k = 0) the
claim predicts a CSV of just the header row, but the written file is a
single empty line with no header (an empty data frame has no columns). -/
theorem transform_row_count_cx :
    transform_nasa_data (some (RawJson.arr [])) = Except.ok [""] ∧
    ([""] : List String) ≠ [csvHeader] := by
  constructor
  · rfl
  · decide

/-- C4 amended: for every raw artifact holding at least one record (a
single object counting as one), the written CSV is the header line followed
by exactly one line per input record, in input order; for an empty record
list the output is a single empty line with no header. -/
theorem transform_row_count_amended (j : RawJson) (hne : normalizeJson j ≠ []) :
    transform_nasa_data (some j) =
      Except.ok (csvHeader ::
        (normalizeJson j).map (fun r => rowToCsvLine (transform_record r))) ∧
    (csvHeader ::
        (normalizeJson j).map (fun r => rowToCsvLine (transform_record r))).length =
      (normalizeJson j).length + 1 ∧
    (∀ i, i < (normalizeJson j).length →
      (csvHeader ::
          (normalizeJson j).map (fun r => rowToCsvLine (transform_record r)))[i + 1]? =
        some (rowToCsvLine (transform_record ((normalizeJson j)[i]?.getD rawSample)))) := by
  refine ⟨?_, by simp, ?_⟩
  · cases hn : normalizeJson j with
    | nil => exact absurd hn hne
    | cons a as => simp [transform_nasa_data, hn, to_csv_lines]
  · intro i hi
    rw [List.getElem?_cons_succ, List.getElem?_map]
    rw [List.getElem?_eq_getElem hi]
    simp

/-- Witness for C4 amended at a two-record artifact. -/
theorem transform_row_count_amended_witness :
    transform_nasa_data (some (RawJson.arr [rawSample, rawNoUrl])) =
      Except.ok (csvHeader ::
        (normalizeJson (RawJson.arr [rawSample, rawNoUrl])).map
          (fun r => rowToCsvLine (transform_record r))) ∧
    (csvHeader ::
        (normalizeJson (RawJson.arr [rawSample, rawNoUrl])).map
          (fun r => rowToCsvLine (transform_record r))).length =
      (normalizeJson (RawJson.arr [rawSample, rawNoUrl])).length + 1 ∧
    (∀ i, i < (normalizeJson (RawJson.arr [rawSample, rawNoUrl])).length →
      (csvHeader ::
          (normalizeJson (RawJson.arr [rawSample, rawNoUrl])).map
            (fun r => rowToCsvLine (transform_record r)))[i + 1]? =
        some (rowToCsvLine (transform_record
          ((normalizeJson (RawJson.arr [rawSample, rawNoUrl]))[i]?.getD rawSample)))) :=
  transform_row_count_amended (RawJson.arr [rawSample, rawNoUrl]) (by decide)

/-- C5 counterexample: for a record whose `url` field is present but empty,
the claim predicts `image_url` equals that (empty) primary field, but the
code's truthiness test falls back to the thumbnail instead. -/
theorem transform_image_url_cx :
    rawEmptyUrl.url = some "" ∧
    (transform_record rawEmptyUrl).image_url ≠ some "" ∧
    (transform_record rawEmptyUrl).image_url = some "http://thumb" := by
  refine ⟨rfl, ?_, rfl⟩
  decide

/-- C5 amended: `image_url` is the primary `url` field when it is present
and non-empty; when `url` is absent — or present but empty (Python
truthiness, not mere presence) — `image_url` is the `thumbnail_url` field
as-is, hence `none` when both are absent. -/
theorem transform_image_url_amended (r : RawRecord) :
    (∀ u, r.url = some u → u ≠ "" → (transform_record r).image_url = some u) ∧
    ((r.url = none ∨ r.url = some "") →
      (transform_record r).image_url = r.thumbnail_url) := by
  constructor
  · intro u hu hne
    simp [transform_record, pyOr, hu, hne]
  · intro h
    rcases h with h | h <;> simp [transform_record, pyOr, h]

/-- Witness for C5 amended: a non-empty primary URL is kept, and an absent
primary URL falls back to the thumbnail. -/
theorem transform_image_url_amended_witness :
    (transform_record rawSample).image_url = some "http://img" ∧
    (transform_record rawNoUrl).image_url = rawNoUrl.thumbnail_url :=
  ⟨(transform_image_url_amended rawSample).1 "http://img" rfl (by decide),
   (transform_image_url_amended rawNoUrl).2 (Or.inl rfl)⟩

/-- C8: for every valid (successful) API response under a usable key, the
collection `extract_nasa_data` writes has exactly as many elements as the
API returned, and a scalar object response is normalized to a one-element
collection before being written. -/
theorem extract_normalizes_response (key : Option String) (resp : RawJson)
    (hk : truthy key = true) :
    (extract_nasa_data key true resp).written = some (normalizeJson resp) ∧
    (normalizeJson resp).length = apiItemCount resp ∧
    (∀ r, resp = RawJson.obj r → normalizeJson resp = [r]) := by
  have hfal : pyFalsy key = false := by
    simpa [truthy] using hk
  refine ⟨?_, ?_, ?_⟩
  · simp [extract_nasa_data, hfal]
  · cases resp <;> simp [normalizeJson, apiItemCount]
  · intro r hr
    subst hr
    rfl

/-- Witness for C8 at a scalar object response. -/
theorem extract_normalizes_response_witness :
    (extract_nasa_data (some "DEMO_KEY") true (RawJson.obj rawSample)).written =
        some (normalizeJson (RawJson.obj rawSample)) ∧
    (normalizeJson (RawJson.obj rawSample)).length =
        apiItemCount (RawJson.obj rawSample) ∧
    (∀ r, RawJson.obj rawSample = RawJson.obj r →
        normalizeJson (RawJson.obj rawSample) = [r]) :=
  extract_normalizes_response (some "DEMO_KEY") (RawJson.obj rawSample) rfl

/-- C9 counterexample: with `api_key` set to a non-empty value in the
environment but an explicitly passed empty key, a credential is available
from a recognized source yet the run still fails with the configuration
error — the claimed biconditional is false at this input. -/
theorem extract_key_check_cx :
    ¬(((extract_run (some "k") none (some (some "")) true (RawJson.arr [])).result =
          Except.error PyErr.valueError) ↔
        credAvailable (some "k") none (some (some "")) = false) := by
  decide

/-- C9 amended: `extract_nasa_data` fails with the configuration error —
issuing no HTTP request and writing no artifact — exactly when the
effective key is falsy, where the effective key is the explicitly passed
argument when one is given (even if empty, ignoring the environment) and
otherwise the first truthy one of the `api_key` and `NASA_API_KEY`
environment variables. -/
theorem extract_key_check_amended (env_api_key env_nasa_api_key : Option String)
    (arg : Option (Option String)) (httpOk : Bool) (resp : RawJson) :
    ((extract_run env_api_key env_nasa_api_key arg httpOk resp).result =
        Except.error PyErr.valueError ∧
     (extract_run env_api_key env_nasa_api_key arg httpOk resp).httpCalls = 0 ∧
     (extract_run env_api_key env_nasa_api_key arg httpOk resp).written = none) ↔
    pyFalsy (arg.getD (nasa_key env_api_key env_nasa_api_key)) = true := by
  by_cases hf : pyFalsy (arg.getD (nasa_key env_api_key env_nasa_api_key)) = true
  · simp [extract_run, extract_nasa_data, hf]
  · have hf0 : pyFalsy (arg.getD (nasa_key env_api_key env_nasa_api_key)) = false := by
      revert hf
      cases pyFalsy (arg.getD (nasa_key env_api_key env_nasa_api_key)) <;> simp
    cases httpOk <;> simp [extract_run, extract_nasa_data, hf0]
